import Mathlib

/-!
Shallow embedding of the speed-math quiz core (`src/main.py`):
question generation under numeric constraints, scoring, percentile
ranking against a history store, and the finish-quiz control flow.

Python floats are modelled as rationals (`ℚ`), Python ints as `Int`.
The pseudo-random generator is modelled as a deterministic stream of
naturals together with a position; `randint lo hi` maps the next stream
value into `[lo, hi]` and advances the position, so every property is
quantified over all possible streams ("regardless of the random values
drawn").  The unbounded rejection-sampling `while` loops are given
explicit fuel and return `none` when the fuel runs out.
-/

namespace SpeedMath

/-- Config constant `NUM_QUESTIONS = 10`. -/
def NUM_QUESTIONS : Nat := 10

/-- Config constant `MAX_ABS_ANSWER = 143`. -/
def MAX_ABS_ANSWER : Int := 143

/-- Config constant `MAX_DIV_ANSWER = 12`. -/
def MAX_DIV_ANSWER : Int := 12

/-- Config constant `SCORE_EPS = 0.01`. -/
def SCORE_EPS : ℚ := 1 / 100

/-- `Question` dataclass: display text and the single correct integer answer. -/
structure Question where
  text : String
  answer : Int
deriving Repr, DecidableEq

/-- Model of `random.Random`: a deterministic stream of naturals plus a
position.  Each primitive draw reads the value at the current position and
advances it. -/
structure RNG where
  stream : Nat → Nat
  pos : Nat

/-- Advance the generator by one draw. -/
def RNG.next (r : RNG) : RNG := ⟨r.stream, r.pos + 1⟩

/-- Model of `rng.randint(lo, hi)` (both ends inclusive): the next stream
value reduced into `[lo, hi]`, together with the advanced generator. -/
def randint (lo hi : Int) (r : RNG) : Int × RNG :=
  (lo + (r.stream r.pos : Int) % (hi - lo + 1), r.next)

/-- Model of `rng.choice(l)`: the next stream value picks an index into `l`. -/
def rchoice (l : List String) (r : RNG) : String × RNG :=
  (l.getD (r.stream r.pos % l.length) "", r.next)

/-- `clamp_ok(ans)`: `abs(ans) <= MAX_ABS_ANSWER`. -/
def clamp_ok (ans : Int) : Bool := decide (|ans| ≤ MAX_ABS_ANSWER)

/-- The `while True` rejection loop of the `×` branch of `make_question`,
with explicit fuel. -/
def mul_loop : Nat → RNG → Option (Question × RNG)
  | 0, _ => none
  | fuel + 1, r =>
    let a := (randint (-12) 12 r).1
    let r1 := (randint (-12) 12 r).2
    let b := (randint (-12) 12 r1).1
    let r2 := (randint (-12) 12 r1).2
    let ans := a * b
    if clamp_ok ans then some (⟨toString a ++ " × " ++ toString b, ans⟩, r2)
    else mul_loop fuel r2

/-- The `while True` rejection loop of the `+` branch of `make_question`,
with explicit fuel. -/
def add_loop : Nat → RNG → Option (Question × RNG)
  | 0, _ => none
  | fuel + 1, r =>
    let a := (randint (-12) 12 r).1
    let r1 := (randint (-12) 12 r).2
    let b := (randint (-12) 12 r1).1
    let r2 := (randint (-12) 12 r1).2
    let ans := a + b
    if clamp_ok ans then some (⟨toString a ++ " + " ++ toString b, ans⟩, r2)
    else add_loop fuel r2

/-- The `while True` rejection loop of the `-` branch of `make_question`,
with explicit fuel. -/
def sub_loop : Nat → RNG → Option (Question × RNG)
  | 0, _ => none
  | fuel + 1, r =>
    let a := (randint (-12) 12 r).1
    let r1 := (randint (-12) 12 r).2
    let b := (randint (-12) 12 r1).1
    let r2 := (randint (-12) 12 r1).2
    let ans := a - b
    if clamp_ok ans then some (⟨toString a ++ " - " ++ toString b, ans⟩, r2)
    else sub_loop fuel r2

/-- The operator list `["+", "-", "×", "÷"]` passed to `rng.choice`. -/
def OPS : List String := ["+", "-", "×", "÷"]

/-- `make_question(rng)`: choose an operator, then build the question.
The division branch draws quotient `q ∈ [0, MAX_DIV_ANSWER]` and divisor
`b ∈ [1, 12]` and sets the dividend `a = b * q`; the other branches
rejection-sample operands from `[-12, 12]` until `clamp_ok`. -/
def make_question (fuel : Nat) (r : RNG) : Option (Question × RNG) :=
  let op := (rchoice OPS r).1
  let r1 := (rchoice OPS r).2
  if op = "÷" then
    let q := (randint 0 MAX_DIV_ANSWER r1).1
    let r2 := (randint 0 MAX_DIV_ANSWER r1).2
    let b := (randint 1 12 r2).1
    let r3 := (randint 1 12 r2).2
    let a := b * q
    some (⟨toString a ++ " ÷ " ++ toString b, q⟩, r3)
  else if op = "×" then
    mul_loop fuel r1
  else if op = "+" then
    add_loop fuel r1
  else
    sub_loop fuel r1

/-- The operator drawn by `make_question` from generator state `r`. -/
def chosen_op (r : RNG) : String := (rchoice OPS r).1

/-- `percentile_rank(user_score, history)`: `None` on empty history, else
`100 * (count of history entries strictly greater than user_score) / len(history)`. -/
def percentile_rank (user_score : ℚ) (history : List ℚ) : Option ℚ :=
  if history = [] then none
  else
    let worse := history.countP (fun s => decide (user_score < s))
    some (100 * (worse : ℚ) / (history.length : ℚ))

/-- The per-position match test of the `correct` loop in `finish_quiz`:
`ua is not None and ua == q.answer`. -/
def answer_matches (q : Question) (ua : Option Int) : Bool :=
  match ua with
  | some v => v == q.answer
  | none => false

/-- The `correct` counter of `finish_quiz`: positions of
`zip(questions, user_answers)` where the answer is present and matches. -/
def count_correct (qs : List Question) (uas : List (Option Int)) : Nat :=
  (qs.zip uas).countP (fun p => answer_matches p.1 p.2)

/-- `accuracy = correct / len(questions)` of `finish_quiz`. -/
def accuracy (qs : List Question) (uas : List (Option Int)) : ℚ :=
  (count_correct qs uas : ℚ) / (qs.length : ℚ)

/-- State of the external Supabase store as seen by this client: the score
rows in insertion order, plus flags saying whether the read side
(unconfigured client or raised exception, both caught) and the write side
fail. -/
structure Store where
  scores : List ℚ
  fetchFails : Bool
  insertFails : Bool

/-- `get_global_scores_supabase(limit)`: on an unconfigured client or any
exception it returns `([], None)`; otherwise up to `limit` scores plus the
exact total count. -/
def get_global_scores_supabase (limit : Nat) (s : Store) : List ℚ × Option Nat :=
  if s.fetchFails then ([], none)
  else (s.scores.take limit, some s.scores.length)

/-- `insert_score_supabase`: appends the row, but an unconfigured client or
a raised exception is swallowed and leaves the store unchanged. -/
def insert_score_supabase (score : ℚ) (s : Store) : Store :=
  if s.insertFails then s else ⟨s.scores ++ [score], s.fetchFails, s.insertFails⟩

/-- The `last_run` record built by `finish_quiz`. -/
structure LastRun where
  time_taken : ℚ
  correct : Nat
  accuracy : ℚ
  score : ℚ
  percentile : Option ℚ
  global_count : Nat
deriving Repr, DecidableEq

/-- `finish_quiz` (its computational core, minus UI): count correct answers,
compute accuracy and the epsilon-floored score, read the global history and
rank against it, then best-effort insert this run's score. -/
def finish_quiz (questions : List Question) (user_answers : List (Option Int))
    (time_taken : ℚ) (store : Store) : LastRun × Store :=
  let correct := count_correct questions user_answers
  let acc := accuracy questions user_answers
  let effective_acc := max acc SCORE_EPS
  let score := (1 / effective_acc) * time_taken
  let fetched := get_global_scores_supabase 5000 store
  let history := fetched.1
  let total_count := fetched.2
  let pct := percentile_rank score history
  let store2 := insert_score_supabase score store
  (⟨time_taken, correct, acc, score, pct, total_count.getD history.length⟩, store2)

/-- Modelled from the spec: `random.Random(seed)` — Python's Mersenne
Twister, which lives in the standard library and not in this repository's
sources — is "a deterministic pseudo-random generator seeded from
`rng_seed`"; it is modelled as a stream of naturals obtained by iterating a
linear congruential step from the seed, which is deterministic in the seed
as the spec requires. -/
def seed_stream (seed : Int) : Nat → Nat :=
  fun n =>
    (fun x => (6364136223846793005 * x + 1442695040888963407) % 2 ^ 64)^[n + 1]
      (seed.natAbs % 2 ^ 64)

/-- The generator state produced by `random.Random(seed)`. -/
def rng_from_seed (seed : Int) : RNG := ⟨seed_stream seed, 0⟩

/-- `[make_question(rng) for _ in range(n)]`: the state-threading list
build of the Start handler; `none` if any rejection loop exhausts its fuel. -/
def gen_questions (fuel : Nat) : Nat → RNG → Option (List Question × RNG)
  | 0, r => some ([], r)
  | n + 1, r =>
    match make_question fuel r with
    | none => none
    | some (q, r1) =>
      match gen_questions fuel n r1 with
      | none => none
      | some (qs, r2) => some (q :: qs, r2)

/-- Python `int()` digit parsing (after sign handling): a nonempty digit
string, where single underscores are allowed between digits. -/
def parse_digits_aux : List Char → Nat → Option Nat
  | [], acc => some acc
  | c :: cs, acc =>
    if c.isDigit then parse_digits_aux cs (acc * 10 + (c.toNat - 48))
    else if c = '_' then
      match cs with
      | c2 :: _ => if c2.isDigit then parse_digits_aux cs acc else none
      | [] => none
    else none

/-- Digit-sequence parser for Python `int()`: must start with a digit. -/
def parse_digits : List Char → Option Nat
  | [] => none
  | c :: cs => if c.isDigit then parse_digits_aux cs (c.toNat - 48) else none

/-- Python `int(s)` on an already-stripped string: optional sign followed
by digits; anything else raises `ValueError` (modelled as `none`). -/
def python_int (s : String) : Option Int :=
  match s.data with
  | '+' :: rest => (parse_digits rest).map (fun n => (n : Int))
  | '-' :: rest => (parse_digits rest).map (fun n => -(n : Int))
  | cs => (parse_digits cs).map (fun n => (n : Int))

/-- Python `str.strip()`: drop leading and trailing whitespace. -/
def py_strip (s : String) : String :=
  ⟨((s.data.dropWhile Char.isWhitespace).reverse.dropWhile Char.isWhitespace).reverse⟩

/-- The submitted-answer handler: `raw.strip()` is parsed with `int`, a
parse failure becomes `None`, and the result is stored at position `idx`
of `user_answers`. -/
def handle_submit (raw : String) (answers : List (Option Int)) (idx : Nat) :
    List (Option Int) :=
  answers.set idx (python_int (py_strip raw))

/-- The spec's scoring policy (b), stated in the spec's own words:
`(1 / max(accuracy, 0.01)) * time_taken`. -/
def score_policy_b (acc t : ℚ) : ℚ := (1 / max acc (1 / 100)) * t

/-- A concrete generator state used by several witnesses: every draw reads 3,
so the chosen operator is `÷`. -/
def testRNG : RNG := ⟨fun _ => 3, 0⟩

/-! ### Helper lemmas -/

/-- `randint lo hi` always lands in `[lo, hi]` when `lo ≤ hi`. -/
theorem randint_mem (lo hi : Int) (r : RNG) (h : lo ≤ hi) :
    lo ≤ (randint lo hi r).1 ∧ (randint lo hi r).1 ≤ hi := by
  have hm : (0 : Int) < hi - lo + 1 := by omega
  have h1 : 0 ≤ (r.stream r.pos : Int) % (hi - lo + 1) :=
    Int.emod_nonneg _ (by omega)
  have h2 : (r.stream r.pos : Int) % (hi - lo + 1) < hi - lo + 1 :=
    Int.emod_lt_of_pos _ hm
  unfold randint
  dsimp only
  omega

/-- `answer_matches` holds exactly when the answer is present and equal. -/
theorem answer_matches_iff (q : Question) (ua : Option Int) :
    answer_matches q ua = true ↔ ua = some q.answer := by
  cases ua <;> simp [answer_matches]

/-- The `×` rejection loop only returns answers passing `clamp_ok`. -/
theorem mul_loop_clamped : ∀ (fuel : Nat) (r : RNG) (q : Question) (r2 : RNG),
    mul_loop fuel r = some (q, r2) → |q.answer| ≤ 143 := by
  intro fuel
  induction fuel with
  | zero => intro r q r2 h; simp [mul_loop] at h
  | succ n ih =>
    intro r q r2 h
    simp only [mul_loop] at h
    split at h
    · rename_i hc
      simp only [Option.some.injEq, Prod.mk.injEq] at h
      obtain ⟨hq, -⟩ := h
      subst hq
      simpa [clamp_ok, MAX_ABS_ANSWER] using hc
    · exact ih _ _ _ h

/-- The `+` rejection loop only returns answers passing `clamp_ok`. -/
theorem add_loop_clamped : ∀ (fuel : Nat) (r : RNG) (q : Question) (r2 : RNG),
    add_loop fuel r = some (q, r2) → |q.answer| ≤ 143 := by
  intro fuel
  induction fuel with
  | zero => intro r q r2 h; simp [add_loop] at h
  | succ n ih =>
    intro r q r2 h
    simp only [add_loop] at h
    split at h
    · rename_i hc
      simp only [Option.some.injEq, Prod.mk.injEq] at h
      obtain ⟨hq, -⟩ := h
      subst hq
      simpa [clamp_ok, MAX_ABS_ANSWER] using hc
    · exact ih _ _ _ h

/-- The `-` rejection loop only returns answers passing `clamp_ok`. -/
theorem sub_loop_clamped : ∀ (fuel : Nat) (r : RNG) (q : Question) (r2 : RNG),
    sub_loop fuel r = some (q, r2) → |q.answer| ≤ 143 := by
  intro fuel
  induction fuel with
  | zero => intro r q r2 h; simp [sub_loop] at h
  | succ n ih =>
    intro r q r2 h
    simp only [sub_loop] at h
    split at h
    · rename_i hc
      simp only [Option.some.injEq, Prod.mk.injEq] at h
      obtain ⟨hq, -⟩ := h
      subst hq
      simpa [clamp_ok, MAX_ABS_ANSWER] using hc
    · exact ih _ _ _ h

end SpeedMath

namespace SpeedMath

/-! ### Claims -/

/-- C1: `percentile_rank(s, h)` returns `None` on an empty history and
otherwise `100 * (number of entries of h strictly greater than s) / len(h)`;
in particular `percentile_rank(s, [s+1, s+1, s-1, s-1]) = 50`. -/
theorem percentile_rank_spec (s : ℚ) (h : List ℚ) :
    (h = [] → percentile_rank s h = none)
    ∧ (h ≠ [] → percentile_rank s h
        = some (100 * (h.countP (fun x => decide (s < x)) : ℚ) / (h.length : ℚ)))
    ∧ percentile_rank s [s + 1, s + 1, s - 1, s - 1] = some 50 := by
  refine ⟨fun he => by simp [percentile_rank, he], fun hne => by simp [percentile_rank, hne], ?_⟩
  have h1 : s < s + 1 := by linarith
  have h2 : ¬ s < s - 1 := by linarith
  simp [percentile_rank, List.countP_cons, h1, h2]
  norm_num

/-- Witness for C1 at `s = 0` with concrete histories. -/
theorem percentile_rank_spec_witness :
    percentile_rank 0 [] = none
    ∧ percentile_rank 0 [2]
        = some (100 * (([2] : List ℚ).countP (fun x => decide ((0 : ℚ) < x)) : ℚ)
            / (([2] : List ℚ).length : ℚ))
    ∧ percentile_rank 0 [0 + 1, 0 + 1, 0 - 1, 0 - 1] = some 50 :=
  ⟨(percentile_rank_spec 0 []).1 rfl,
   (percentile_rank_spec 0 [2]).2.1 (by simp),
   (percentile_rank_spec 0 []).2.2⟩

/-- C2: the implemented scorer is the epsilon-floor policy (b):
`score = (1 / max(accuracy, 0.01)) * time_taken` for every run; when every
answer is wrong or skipped and `time_taken = 5`, the score is `500`, and
when every answer is correct and `time_taken = 5`, the score is `5`. -/
theorem scorer_uses_policy_b :
    (∀ (qs : List Question) (uas : List (Option Int)) (t : ℚ) (s : Store),
      (finish_quiz qs uas t s).1.score = score_policy_b (accuracy qs uas) t)
    ∧ (finish_quiz (List.replicate 10 ⟨"1 + 1", 2⟩) (List.replicate 10 none) 5
        ⟨[], false, false⟩).1.score = 500
    ∧ (finish_quiz (List.replicate 10 ⟨"1 + 1", 2⟩) (List.replicate 10 (some 2)) 5
        ⟨[], false, false⟩).1.score = 5 := by
  refine ⟨fun qs uas t s => rfl, ?_, ?_⟩ <;>
    norm_num [finish_quiz, accuracy, count_correct, answer_matches, SCORE_EPS,
      List.replicate, List.countP_cons]

/-- C5: with `N` questions and `N` answers, accuracy equals the number of
exactly-matching positions divided by `N`, always lies in `[0, 1]`, and
equals `1` iff every paired position matches exactly. -/
theorem accuracy_spec (qs : List Question) (uas : List (Option Int)) (N : Nat)
    (hq : qs.length = N) (hu : uas.length = N) (hN : 0 < N) :
    accuracy qs uas = (count_correct qs uas : ℚ) / (N : ℚ)
    ∧ 0 ≤ accuracy qs uas ∧ accuracy qs uas ≤ 1
    ∧ (accuracy qs uas = 1 ↔ ∀ p ∈ qs.zip uas, p.2 = some p.1.answer) := by
  have hzip : (qs.zip uas).length = N := by
    rw [List.length_zip qs uas, hq, hu]; omega
  have hcount : count_correct qs uas ≤ N := by
    have := List.countP_le_length (l := qs.zip uas) (fun p => answer_matches p.1 p.2)
    rw [hzip] at this
    exact this
  have hNq : (0 : ℚ) < (N : ℚ) := by exact_mod_cast hN
  refine ⟨by rw [accuracy, hq], ?_, ?_, ?_⟩
  · rw [accuracy, hq]
    exact div_nonneg (by positivity) (le_of_lt hNq)
  · rw [accuracy, hq, div_le_one hNq]
    exact_mod_cast hcount
  · rw [accuracy, hq, div_eq_iff (ne_of_gt hNq), one_mul]
    rw [show ((count_correct qs uas : ℚ) = (N : ℚ)) ↔ count_correct qs uas = N from
      Nat.cast_inj]
    rw [count_correct, ← hzip, List.countP_eq_length]
    constructor
    · intro hall p hp
      exact (answer_matches_iff p.1 p.2).mp (hall p hp)
    · intro hall p hp
      exact (answer_matches_iff p.1 p.2).mpr (hall p hp)

/-- Witness for C5 on a one-question run with a matching answer. -/
theorem accuracy_spec_witness :
    accuracy [⟨"1 + 1", 2⟩] [some 2]
        = (count_correct [⟨"1 + 1", 2⟩] [some 2] : ℚ) / ((1 : Nat) : ℚ)
    ∧ 0 ≤ accuracy [⟨"1 + 1", 2⟩] [some 2] ∧ accuracy [⟨"1 + 1", 2⟩] [some 2] ≤ 1
    ∧ (accuracy [⟨"1 + 1", 2⟩] [some 2] = 1 ↔
        ∀ p ∈ ([⟨"1 + 1", 2⟩] : List Question).zip [some 2], p.2 = some p.1.answer) :=
  accuracy_spec [⟨"1 + 1", 2⟩] [some 2] 1 rfl rfl (by decide)

/-- C7: when the persistence layer fails or is unconfigured, `finish_quiz`
still completes: the percentile degrades to `none`, the record keeps the
computed `time_taken`, `accuracy` and `score`, and the best-effort insert
(whether it succeeds or not) never changes the produced record. -/
theorem finish_quiz_degrades (qs : List Question) (uas : List (Option Int))
    (t : ℚ) (s : Store) (hf : s.fetchFails = true) :
    (finish_quiz qs uas t s).1.percentile = none
    ∧ (finish_quiz qs uas t s).1.time_taken = t
    ∧ (finish_quiz qs uas t s).1.accuracy = accuracy qs uas
    ∧ (finish_quiz qs uas t s).1.score = (1 / max (accuracy qs uas) SCORE_EPS) * t
    ∧ ∀ b : Bool,
        (finish_quiz qs uas t ⟨s.scores, s.fetchFails, b⟩).1 = (finish_quiz qs uas t s).1 := by
  refine ⟨?_, rfl, rfl, rfl, fun b => rfl⟩
  simp [finish_quiz, get_global_scores_supabase, hf, percentile_rank]

/-- Witness for C7: empty run against a failing store. -/
theorem finish_quiz_degrades_witness :
    (finish_quiz [] [] 0 ⟨[3], true, false⟩).1.percentile = none
    ∧ (finish_quiz [] [] 0 ⟨[3], true, false⟩).1.time_taken = 0
    ∧ (finish_quiz [] [] 0 ⟨[3], true, false⟩).1.accuracy = accuracy [] []
    ∧ (finish_quiz [] [] 0 ⟨[3], true, false⟩).1.score
        = (1 / max (accuracy [] []) SCORE_EPS) * 0
    ∧ ∀ b : Bool,
        (finish_quiz [] [] 0 ⟨([3] : List ℚ), true, b⟩).1
          = (finish_quiz [] [] 0 ⟨[3], true, false⟩).1 :=
  finish_quiz_degrades [] [] 0 ⟨[3], true, false⟩ rfl

/-- C8: the history used for the percentile is the store snapshot read
before this run's score is appended: the record's percentile ranks the
score against the pre-insert scores, and only afterwards does the store
gain this run's score. -/
theorem history_read_before_insert (qs : List Question) (uas : List (Option Int))
    (t : ℚ) (s : Store) (hf : s.fetchFails = false) (hi : s.insertFails = false) :
    (finish_quiz qs uas t s).1.percentile
      = percentile_rank ((finish_quiz qs uas t s).1.score) (s.scores.take 5000)
    ∧ (finish_quiz qs uas t s).2.scores
      = s.scores ++ [(finish_quiz qs uas t s).1.score] := by
  constructor
  · simp [finish_quiz, get_global_scores_supabase, hf]
  · simp [finish_quiz, insert_score_supabase, hi]

/-- Witness for C8: empty run against a working store holding one score. -/
theorem history_read_before_insert_witness :
    (finish_quiz [] [] 0 ⟨[3], false, false⟩).1.percentile
      = percentile_rank ((finish_quiz [] [] 0 ⟨[3], false, false⟩).1.score)
          (([3] : List ℚ).take 5000)
    ∧ (finish_quiz [] [] 0 ⟨[3], false, false⟩).2.scores
      = [3] ++ [(finish_quiz [] [] 0 ⟨[3], false, false⟩).1.score] :=
  history_read_before_insert [] [] 0 ⟨[3], false, false⟩ rfl rfl

/-- C9: a submitted string that does not parse as an integer is recorded as
`none` at its position, and a `none` answer never counts as correct. -/
theorem malformed_input_recorded_none (raw : String) (answers : List (Option Int))
    (idx : Nat) (hp : python_int (py_strip raw) = none) (hidx : idx < answers.length) :
    (handle_submit raw answers idx)[idx]? = some none
    ∧ ∀ q : Question, answer_matches q none = false := by
  refine ⟨?_, fun q => rfl⟩
  simp [handle_submit, hp, List.getElem?_set, hidx]

/-- Witness for C9 with the non-numeric input `"abc"`. -/
theorem malformed_input_recorded_none_witness :
    (handle_submit "abc" [some 3] 0)[0]? = some none
    ∧ ∀ q : Question, answer_matches q none = false :=
  malformed_input_recorded_none "abc" [some 3] 0 (by decide) (by decide)

/-- C3: every question `make_question` produces satisfies
`abs(answer) ≤ 143`, and when the drawn operator is `÷` the answer
additionally lies in `[0, 12]`, for every possible stream of draws. -/
theorem make_question_bounds (fuel : Nat) (r : RNG) (q : Question) (r2 : RNG)
    (h : make_question fuel r = some (q, r2)) :
    |q.answer| ≤ 143 ∧ (chosen_op r = "÷" → 0 ≤ q.answer ∧ q.answer ≤ 12) := by
  simp only [make_question] at h
  by_cases hop : (rchoice OPS r).1 = "÷"
  · rw [if_pos hop] at h
    simp only [Option.some.injEq, Prod.mk.injEq] at h
    obtain ⟨hq, -⟩ := h
    subst hq
    have hb := randint_mem 0 MAX_DIV_ANSWER (rchoice OPS r).2 (by norm_num [MAX_DIV_ANSWER])
    simp only [MAX_DIV_ANSWER] at hb
    refine ⟨?_, fun _ => ⟨hb.1, hb.2⟩⟩
    dsimp only
    simp only [MAX_DIV_ANSWER]
    rw [abs_le]
    omega
  · rw [if_neg hop] at h
    have hvac : chosen_op r = "÷" → 0 ≤ q.answer ∧ q.answer ≤ 12 :=
      fun hc => absurd hc hop
    by_cases hmul : (rchoice OPS r).1 = "×"
    · rw [if_pos hmul] at h
      exact ⟨mul_loop_clamped fuel _ q r2 h, hvac⟩
    · rw [if_neg hmul] at h
      by_cases hadd : (rchoice OPS r).1 = "+"
      · rw [if_pos hadd] at h
        exact ⟨add_loop_clamped fuel _ q r2 h, hvac⟩
      · rw [if_neg hadd] at h
        exact ⟨sub_loop_clamped fuel _ q r2 h, hvac⟩

/-- Witness for C3: with every draw reading 3, `make_question` builds the
division question `12 ÷ 4` with answer 3. -/
theorem make_question_bounds_witness :
    |(⟨"12 ÷ 4", (3 : Int)⟩ : Question).answer| ≤ 143
    ∧ (chosen_op testRNG = "÷" →
        0 ≤ (⟨"12 ÷ 4", (3 : Int)⟩ : Question).answer
        ∧ (⟨"12 ÷ 4", (3 : Int)⟩ : Question).answer ≤ 12) :=
  make_question_bounds 1 testRNG ⟨"12 ÷ 4", 3⟩ ⟨testRNG.stream, 3⟩ rfl

/-- C4: every division question displays operands `a` and `b` with
`a = b * answer`, divisor `b` drawn from `[1, 12]` and quotient drawn from
`[0, 12]`, so the division is exact and its divisor is never zero. -/
theorem make_question_divide_exact (fuel : Nat) (r : RNG) (q : Question) (r2 : RNG)
    (hop : chosen_op r = "÷") (h : make_question fuel r = some (q, r2)) :
    ∃ a b : Int, q.text = toString a ++ " ÷ " ++ toString b
      ∧ a = b * q.answer ∧ 1 ≤ b ∧ b ≤ 12 ∧ 0 ≤ q.answer ∧ q.answer ≤ 12 := by
  simp only [make_question] at h
  rw [chosen_op] at hop
  rw [if_pos hop] at h
  simp only [Option.some.injEq, Prod.mk.injEq] at h
  obtain ⟨hq, -⟩ := h
  subst hq
  have hqv := randint_mem 0 MAX_DIV_ANSWER (rchoice OPS r).2 (by norm_num [MAX_DIV_ANSWER])
  simp only [MAX_DIV_ANSWER] at hqv
  have hbv := randint_mem 1 12 (randint 0 MAX_DIV_ANSWER (rchoice OPS r).2).2 (by norm_num)
  exact ⟨_, _, rfl, rfl, hbv.1, hbv.2, hqv.1, hqv.2⟩

/-- Witness for C4 on the same concrete draws as the C3 witness. -/
theorem make_question_divide_exact_witness :
    ∃ a b : Int, (⟨"12 ÷ 4", (3 : Int)⟩ : Question).text
        = toString a ++ " ÷ " ++ toString b
      ∧ a = b * (⟨"12 ÷ 4", (3 : Int)⟩ : Question).answer
      ∧ 1 ≤ b ∧ b ≤ 12
      ∧ 0 ≤ (⟨"12 ÷ 4", (3 : Int)⟩ : Question).answer
      ∧ (⟨"12 ÷ 4", (3 : Int)⟩ : Question).answer ≤ 12 :=
  make_question_divide_exact 1 testRNG ⟨"12 ÷ 4", 3⟩ ⟨testRNG.stream, 3⟩ rfl rfl

/-- C10: for the `+` and `-` branches both operands come from `[-12, 12]`,
so `|a ± b| ≤ 24 ≤ 143`, the very first sample passes `clamp_ok`, and the
rejection loop terminates in exactly one iteration on every stream of
draws: any fuel gives the same result as fuel 1, and fuel 1 succeeds. -/
theorem add_sub_loops_one_iteration (fuel : Nat) (r : RNG) :
    add_loop (fuel + 1) r = add_loop 1 r ∧ (add_loop 1 r).isSome = true
    ∧ sub_loop (fuel + 1) r = sub_loop 1 r ∧ (sub_loop 1 r).isSome = true := by
  have ha := randint_mem (-12) 12 r (by norm_num)
  have hb := randint_mem (-12) 12 (randint (-12) 12 r).2 (by norm_num)
  have hadd : clamp_ok ((randint (-12) 12 r).1
      + (randint (-12) 12 (randint (-12) 12 r).2).1) = true := by
    simp only [clamp_ok, MAX_ABS_ANSWER, decide_eq_true_eq, abs_le]
    omega
  have hsub : clamp_ok ((randint (-12) 12 r).1
      - (randint (-12) 12 (randint (-12) 12 r).2).1) = true := by
    simp only [clamp_ok, MAX_ABS_ANSWER, decide_eq_true_eq, abs_le]
    omega
  refine ⟨?_, ?_, ?_, ?_⟩ <;> simp [add_loop, sub_loop, hadd, hsub]

/-- C6: the question sequence is a deterministic function of the seed: two
independent generator invocations from the same seed produce the same
questions (texts and answers alike). -/
theorem generator_deterministic (fuel : Nat) (seed : Int) :
    gen_questions fuel NUM_QUESTIONS (rng_from_seed seed)
      = gen_questions fuel NUM_QUESTIONS (rng_from_seed seed) := rfl

end SpeedMath
